import Mathlib

/-!
Verification of the SDK mutator pipeline in `sdk/sdk.go` of the
android_build_soong repository (ProtonAOSP-platina fork).

The pipeline is six graph-mutation passes over a build dependency graph:
membership assignment, containment recording, inter-version edge creation,
requirement propagation, edge replacement, and requirement validation.
Each pass is embedded below as an executable Lean function translated from
the Go source; host primitives that live outside `sdk/sdk.go` (the
`android.SdkAware` contract, `android.ParseSdkRef`, blueprint's
`ReplaceDependencies`, the snapshot builder) are modelled from the design
document and marked as such in their doc comments.
-/

/-! ## SDK references (`android.SdkRef`) -/

/-- An SDK reference: an immutable (name, version) pair.  An empty version
means the unversioned, in-development copy of the SDK. -/
structure SdkRef where
  name : String
  version : String
deriving DecidableEq, Repr

/-- Source `SdkRef.Unversioned`: true when the version string is empty. -/
def SdkRef.Unversioned (r : SdkRef) : Bool := r.version == ""

/-- Source `android.SdkRefs`: a set of SDK references, kept as a list. -/
abbrev SdkRefs := List SdkRef

/-- Source `SdkRefs.Contains`: membership test used by passes 5 and 6. -/
def SdkRefs.Contains (rs : SdkRefs) (r : SdkRef) : Bool := rs.contains r

/-- Modelled from the spec: splits a name of the form `<name>@<version>`
at the first separator; the tail of the character list after the first
`@` is the version.  `android.ParseSdkRef` is repository code that is not
part of `sdk/sdk.go`. -/
def splitAtSeparator : List Char → List Char × Option (List Char)
  | [] => ([], none)
  | c :: rest =>
    if c = '@' then ([], some rest)
    else
      let (n, v) := splitAtSeparator rest
      (c :: n, v)

/-- Modelled from the spec: `android.ParseSdkRef` parses module names
following `<name>@<version>` syntax; a name without a separator is
unversioned (empty version). -/
def ParseSdkRef (s : String) : SdkRef :=
  match splitAtSeparator s.data with
  | (n, none) => ⟨String.mk n, ""⟩
  | (n, some v) => ⟨String.mk n, String.mk v⟩

/-! ## `strconv.Atoi` (Go standard library, 64-bit int) -/

/-- True when the character list is one or more decimal digits. -/
def isDecDigits (l : List Char) : Bool := !l.isEmpty && l.all (·.isDigit)

/-- Numeric value of a decimal digit string. -/
def decDigitsVal (l : List Char) : Nat :=
  l.foldl (fun acc c => acc * 10 + (c.toNat - 48)) 0

/-- Success predicate of Go's `strconv.Atoi` on a 64-bit platform: an
optional sign followed by one or more decimal digits, with the signed
value within the `int64` range. -/
def goAtoiOk (s : String) : Bool :=
  match s.data with
  | '+' :: rest => isDecDigits rest && decide (decDigitsVal rest < 9223372036854775808)
  | '-' :: rest => isDecDigits rest && decide (decDigitsVal rest ≤ 9223372036854775808)
  | l => isDecDigits l && decide (decDigitsVal l < 9223372036854775808)

/-! ## Graph nodes and the SdkAware capability -/

/-- Modelled from the spec: the per-node data behind the `android.SdkAware`
capability contract (containing-SDK, member name, required-SDK set).
The contract itself lives in the `android` package, outside `sdk/sdk.go`. -/
structure SdkAwareData where
  memberName : String
  containingSdk : Option SdkRef
  requiredSdks : SdkRefs
deriving DecidableEq, Repr

/-- Source `IsInAnySdk`: the node has been assigned a containing SDK. -/
def SdkAwareData.IsInAnySdk (sa : SdkAwareData) : Bool := sa.containingSdk.isSome

/-- Modelled from the spec: the `ContainingSdk()` getter returns the
assigned reference, or the empty (unversioned, unnamed) reference while
unassigned. -/
def SdkAwareData.ContainingSdkRef (sa : SdkAwareData) : SdkRef :=
  sa.containingSdk.getD ⟨"", ""⟩

/-- A graph node as the passes see it: a name, a build variant, and the
optional SdkAware capability (nodes without it are skipped). -/
structure GraphModule where
  name : String
  variant : Nat
  sdkAware : Option SdkAwareData
deriving DecidableEq, Repr

/-- The required-SDK set a node reports (empty when not SdkAware). -/
def GraphModule.requiredOf (m : GraphModule) : SdkRefs :=
  match m.sdkAware with
  | some sa => sa.requiredSdks
  | none => []

/-- Typed markers on dependency edges: the defaults tag, a membership tag
bound to a member-list property (identified by its registry index), a
versioned-member tag (`sdkMemberVesionedDepTag`), or an unrelated tag. -/
inductive DepTag where
  | defaultsDep : DepTag
  | memberList (idx : Nat) : DepTag
  | memberVersioned (member : String) (version : String) : DepTag
  | other (k : Nat) : DepTag
deriving DecidableEq, Repr

/-- A direct dependency edge: its tag and the target module. -/
structure Dep where
  tag : DepTag
  mod : GraphModule
deriving DecidableEq, Repr

/-! ## Member-list property registry (`sdkMemberListProperties` and `init`) -/

/-- The sdk module's property block, `sdkProperties` in the source: four
member-name lists plus the mutated-only `Snapshot` flag. -/
structure SdkProperties where
  Java_header_libs : List String
  Java_libs : List String
  Native_shared_libs : List String
  Stubs_sources : List String
  Snapshot : Bool
deriving DecidableEq, Repr

/-- Identifier of an external member-type capability (`cc.LibrarySdkMemberType`
and friends); the pipeline never inspects member-type internals. -/
inductive SdkMemberTypeId where
  | ccLibrary : SdkMemberTypeId
  | javaHeaderLibrary : SdkMemberTypeId
  | javaImplLibrary : SdkMemberTypeId
  | droidStubs : SdkMemberTypeId
deriving DecidableEq, Repr

/-- One entry of the member-list property registry: property name, getter
into the property block, member type, and the lazily bound dependency tag.
The tag's back-pointer to the property is represented by the registry
index of the entry it was built for (`none` before `init` runs). -/
structure SdkMemberListProperty where
  name : String
  getter : SdkProperties → List String
  memberType : SdkMemberTypeId
  dependencyTag : Option Nat

/-- The registry as written in the source, before `init` populates the
dependency tags. -/
def sdkMemberListPropertiesDecl : List SdkMemberListProperty :=
  [⟨"native_shared_libs", fun p => p.Native_shared_libs, .ccLibrary, none⟩,
   ⟨"java_header_libs", fun p => p.Java_header_libs, .javaHeaderLibrary, none⟩,
   ⟨"java_libs", fun p => p.Java_libs, .javaImplLibrary, none⟩,
   ⟨"stubs_sources", fun p => p.Stubs_sources, .droidStubs, none⟩]

/-- The loop in `init`: build, for each registry entry, a dependency tag
whose `memberListProperty` field points back to that entry (here: the
entry's index). -/
def populateDependencyTagsFrom (i : Nat) :
    List SdkMemberListProperty → List SdkMemberListProperty
  | [] => []
  | p :: rest =>
     let q : SdkMemberListProperty := ⟨p.name, p.getter, p.memberType, some i⟩
     q :: populateDependencyTagsFrom (i + 1) rest

/-- The registry after package `init` has run. -/
def sdkMemberListProperties : List SdkMemberListProperty :=
  populateDependencyTagsFrom 0 sdkMemberListPropertiesDecl

/-! ## Pass 1: membership assignment (`memberMutator`) -/

/-- Pass 1, `memberMutator`, on an sdk module: for every registry entry, read the
member names through the entry's getter and create one membership edge per
name, carrying the entry's bound dependency tag. -/
def memberMutatorEdges (props : SdkProperties) : List (Option Nat × String) :=
  (sdkMemberListProperties.map
    (fun p => (p.getter props).map (fun n => (p.dependencyTag, n)))).flatten

/-! ## Pass 2: containment recording (`memberDepsMutator`) -/

/-- The name-validation prefix of `memberDepsMutator` (lines 236-247):
the property errors reported against "name" for a module with the given
snapshot flag and parsed reference. -/
def memberDepsNameErrors (snapshot : Bool) (ref : SdkRef) : List String :=
  (if snapshot && ref.Unversioned then
     ["sdk_snapshot should be named as <name>@<version>."] else []) ++
  (if !snapshot && !ref.Unversioned then
     ["sdk shouldn't be named as <name>@<version>."] else []) ++
  (if ref.version != "" && ref.version != "current" && !goAtoiOk ref.version then
     ["version is neither a number nor current"] else [])

/-- The visit loop of `memberDepsMutator` (lines 249-253): for every
direct dependency that implements SdkAware, record the sdk's reference as
its containing SDK (`MakeMemberOf`).  The loop inspects only the child
module, never the edge's tag. -/
def memberDepsRecordings (ref : SdkRef) (deps : List Dep) :
    List (GraphModule × SdkRef) :=
  deps.filterMap fun d =>
    match d.mod.sdkAware with
    | some _ => some (d.mod, ref)
    | none => none

/-- The whole of `memberDepsMutator` on an sdk module: parse the name,
report validation errors, then record containment on the direct
dependencies.  The recording loop runs unconditionally, after any errors. -/
def memberDepsMutator (snapshot : Bool) (moduleName : String)
    (deps : List Dep) : List String × List (GraphModule × SdkRef) :=
  let ref := ParseSdkRef moduleName
  (memberDepsNameErrors snapshot ref, memberDepsRecordings ref deps)

/-- Spec-side definition (for comparison only, following the spec's words,
not the source): a non-negative integer literal is a nonempty string of
decimal digits. -/
def specNonNegIntLiteral (s : String) : Bool := isDecDigits s.data

/-! ## Pass 3: inter-version edge creation (`memberInterVersionMutator`) -/

/-- A reverse dependency edge created by pass 3: from the module named
`fromName` to the module `toModule`, carrying `tag`. -/
structure ReverseEdge where
  fromName : String
  tag : DepTag
  toModule : GraphModule
deriving DecidableEq, Repr

/-- Pass 3, `memberInterVersionMutator`: for a module that implements SdkAware, is
in some SDK, and whose containing SDK is versioned, create one reverse
dependency edge from the node named by the member name to this module,
tagged `sdkMemberVesionedDepTag` with that member name and version. -/
def memberInterVersionMutator (m : GraphModule) : Option ReverseEdge :=
  match m.sdkAware with
  | none => none
  | some sa =>
    match sa.containingSdk with
    | none => none
    | some csdk =>
      if !csdk.Unversioned then
        some ⟨sa.memberName,
              DepTag.memberVersioned sa.memberName csdk.version, m⟩
      else none

/-! ## Pass 4: requirement propagation (`sdkDepsMutator`) -/

/-- Modelled from the spec: `BuildWithSdks` (android.SdkAware contract,
outside `sdk/sdk.go`) unions the given required-SDK set into the node's
own required-SDK set. -/
def BuildWithSdks (sa : SdkAwareData) (sdks : SdkRefs) : SdkAwareData :=
  ⟨sa.memberName, sa.containingSdk,
   sa.requiredSdks ++ sdks.filter (fun r => !sa.requiredSdks.contains r)⟩

/-- The per-dependency step of `sdkDepsMutator`: a dependency implementing
SdkAware receives the parent's required-SDK set; others are untouched. -/
def sdkDepsStep (requiredSdks : SdkRefs) (d : GraphModule) : GraphModule :=
  match d.sdkAware with
  | some dsa => ⟨d.name, d.variant, some (BuildWithSdks dsa requiredSdks)⟩
  | none => d

/-- Pass 4, `sdkDepsMutator`: when the module is SdkAware and reports a non-empty
required-SDK set, push that set into every direct dependency implementing
SdkAware; otherwise leave the dependencies unchanged. -/
def sdkDepsMutator (m : GraphModule) (deps : List GraphModule) :
    List GraphModule :=
  match m.sdkAware with
  | none => deps
  | some sa =>
    if sa.requiredSdks.length > 0 then deps.map (sdkDepsStep sa.requiredSdks)
    else deps

/-! ## Pass 5: edge replacement (`sdkDepsReplaceMutator`) -/

/-- A dependent node of the wider graph, as seen by the replacement
primitive: its name, build variant, and the names its edges target. -/
structure Dependent where
  name : String
  variant : Nat
  depTargets : List String
deriving DecidableEq, Repr

/-- The wider graph pass 5 rewrites: the list of dependent nodes. -/
abbrev Graph := List Dependent

/-- Modelled from the spec: blueprint's `ReplaceDependencies` rewires,
among dependents sharing the current node's build variant, every edge
targeting the named (unversioned) member so that it targets the current
node instead; dependents of other variants are untouched. -/
def ReplaceDependencies (curName : String) (curVariant : Nat)
    (memberName : String) (g : Graph) : Graph :=
  g.map fun dep =>
    if dep.variant = curVariant then
      ⟨dep.name, dep.variant,
       dep.depTargets.map (fun t => if t = memberName then curName else t)⟩
    else dep

/-- The guard of `sdkDepsReplaceMutator`: returns the member name to
replace when the module is SdkAware, in some SDK, its containing SDK is a
specific version, and its own required-SDK set contains that reference;
`none` otherwise. -/
def sdkDepsReplaceInvokes (m : GraphModule) : Option String :=
  match m.sdkAware with
  | none => none
  | some sa =>
    match sa.containingSdk with
    | none => none
    | some csdk =>
      if !csdk.Unversioned && SdkRefs.Contains sa.requiredSdks csdk then
        some sa.memberName
      else none

/-- Pass 5, `sdkDepsReplaceMutator`: perform the replacement exactly when the
guard fires. -/
def sdkDepsReplaceMutator (m : GraphModule) (g : Graph) : Graph :=
  match sdkDepsReplaceInvokes m with
  | some member => ReplaceDependencies m.name m.variant member g
  | none => g

/-! ## Pass 6: requirement validation (`sdkRequirementsMutator`) -/

/-- A requirement violation reported by pass 6: the offending dependency's
name, its containing SDK, and the allowed set. -/
structure ReqViolation where
  depName : String
  depSdk : SdkRef
  required : SdkRefs
deriving DecidableEq, Repr

/-- Pass 6, `sdkRequirementsMutator`, on a module exposing the required-SDK set and
the co-packaging test `depIsInSameApex`: with an empty required set no
dependency is visited; otherwise, for every direct dependency whose edge
is not the defaults tag and which implements SdkAware, a violation is
reported exactly when the dependency is neither co-packaged nor has its
containing SDK in the required set. -/
def sdkRequirementsMutator (requiredSdks : SdkRefs)
    (depIsInSameApex : GraphModule → Bool) (deps : List Dep) :
    List ReqViolation :=
  if requiredSdks.length = 0 then []
  else
    deps.filterMap fun d =>
      if d.tag = DepTag.defaultsDep then none
      else
        match d.mod.sdkAware with
        | none => none
        | some sa =>
          if !depIsInSameApex d.mod &&
             !SdkRefs.Contains requiredSdks sa.ContainingSdkRef then
            some ⟨d.mod.name, sa.ContainingSdkRef, requiredSdks⟩
          else none

/-! ## Factories and build actions (`ModuleFactory`, `SnapshotModuleFactory`,
`GenerateAndroidBuildActions`, `AndroidMkEntries`) -/

/-- The property surface settable from a build file.  The `Snapshot` field
of `sdkProperties` carries the blueprint tag `mutated` and is absent here:
it cannot be set from a build file. -/
structure SdkBpInput where
  Java_header_libs : List String
  Java_libs : List String
  Native_shared_libs : List String
  Stubs_sources : List String
deriving DecidableEq, Repr

/-- The sdk module state relevant to build-action generation. -/
structure SdkModule where
  name : String
  properties : SdkProperties
  snapshotFile : Option String
deriving DecidableEq, Repr

/-- Source `ModuleFactory`: a new sdk module from a build file; the snapshot
flag starts false and the snapshot file is unset. -/
def ModuleFactory (name : String) (bp : SdkBpInput) : SdkModule :=
  ⟨name,
   ⟨bp.Java_header_libs, bp.Java_libs, bp.Native_shared_libs,
    bp.Stubs_sources, false⟩,
   none⟩

/-- Source `SnapshotModuleFactory`: same as `ModuleFactory`, then sets the
snapshot flag at construction. -/
def SnapshotModuleFactory (name : String) (bp : SdkBpInput) : SdkModule :=
  let s := ModuleFactory name bp
  ⟨s.name,
   ⟨s.properties.Java_header_libs, s.properties.Java_libs,
    s.properties.Native_shared_libs, s.properties.Stubs_sources, true⟩,
   s.snapshotFile⟩

/-- Modelled from the spec: `buildSnapshot` (the repository's snapshot
serialization code, not under the embedded source file) produces the
snapshot artifact path for the sdk; serialization itself is out of scope. -/
def buildSnapshot (s : SdkModule) : String := s.name ++ "-current.zip"

/-- Source `GenerateAndroidBuildActions`: a non-snapshot sdk builds its snapshot
artifact and records the (valid) path; a snapshot module builds nothing. -/
def GenerateAndroidBuildActions (s : SdkModule) : SdkModule :=
  if !s.properties.Snapshot then
    ⟨s.name, s.properties, some (buildSnapshot s)⟩
  else s

/-- The Android.mk entries an sdk module yields. -/
structure AndroidMkEntries where
  Class : String
  OutputFile : Option String
  DistFile : Option String
  Include : String
  extraFooterLines : List String
deriving DecidableEq, Repr

/-- The zero value returned when the snapshot file is not valid. -/
def emptyAndroidMkEntries : AndroidMkEntries := ⟨"", none, none, "", []⟩

/-- Source `AndroidMkEntries()`: empty entries unless the snapshot file is valid;
otherwise a FAKE-class entry exposing the file, with a phony rule named
after the module. -/
def AndroidMkEntriesOf (s : SdkModule) : AndroidMkEntries :=
  match s.snapshotFile with
  | none => emptyAndroidMkEntries
  | some f =>
    ⟨"FAKE", some f, some f, "$(BUILD_PHONY_PACKAGE)",
     [".PHONY: " ++ s.name, s.name ++ ": " ++ f]⟩

/-! ## Theorems -/

/-- C4 counterexample: a snapshot module whose parsed reference has
version "-1" — non-empty, not "current", and not a non-negative integer
literal — triggers no property error, contrary to the claim's iff. -/
theorem memberDeps_negative_version_no_error :
    memberDepsNameErrors true ⟨"foo", "-1"⟩ = [] ∧
    ("-1" : String) ≠ "" ∧ ("-1" : String) ≠ "current" ∧
    specNonNegIntLiteral "-1" = false ∧
    SdkRef.Unversioned ⟨"foo", "-1"⟩ = false := by decide

/-- C4 (amended): a property error on "name" is raised iff the module is
a snapshot with an unversioned parsed reference, or a non-snapshot with a
versioned one, or the parsed version is non-empty, not "current", and not
accepted by Go's signed decimal integer parsing (`strconv.Atoi`). -/
theorem memberDepsNameErrors_iff (snapshot : Bool) (ref : SdkRef) :
    memberDepsNameErrors snapshot ref ≠ [] ↔
      (snapshot = true ∧ ref.Unversioned = true) ∨
      (snapshot = false ∧ ref.Unversioned = false) ∨
      (ref.version ≠ "" ∧ ref.version ≠ "current" ∧
        goAtoiOk ref.version = false) := by
  unfold memberDepsNameErrors
  cases snapshot <;>
    by_cases h1 : ref.Unversioned <;>
    by_cases h2 : ref.version = "" <;>
    by_cases h3 : ref.version = "current" <;>
    by_cases h4 : goAtoiOk ref.version <;>
    simp_all [SdkRef.Unversioned]

/-- Witness for `memberDepsNameErrors_iff` at a concrete input. -/
theorem memberDepsNameErrors_iff_witness :
    (true = true ∧ SdkRef.Unversioned ⟨"foo", "7x"⟩ = true) ∨
    (true = false ∧ SdkRef.Unversioned ⟨"foo", "7x"⟩ = false) ∨
    (("7x" : String) ≠ "" ∧ ("7x" : String) ≠ "current" ∧
      goAtoiOk "7x" = false) :=
  (memberDepsNameErrors_iff true ⟨"foo", "7x"⟩).mp (by decide)

/-- Helper: a SdkAware direct dependency is always recorded by pass 2. -/
theorem mem_memberDepsRecordings (ref : SdkRef) (deps : List Dep) (d : Dep)
    (hd : d ∈ deps) (hsa : d.mod.sdkAware.isSome) :
    (d.mod, ref) ∈ memberDepsRecordings ref deps := by
  unfold memberDepsRecordings
  rw [List.mem_filterMap]
  refine ⟨d, hd, ?_⟩
  cases h : d.mod.sdkAware with
  | none => rw [h] at hsa; simp at hsa
  | some sa => simp

/-- Helper: every pass-2 recording pairs a SdkAware dependency of the
visited list with the sdk's reference. -/
theorem memberDepsRecordings_spec (ref : SdkRef) (deps : List Dep)
    (p : GraphModule × SdkRef) (hp : p ∈ memberDepsRecordings ref deps) :
    p.2 = ref ∧ ∃ d ∈ deps, d.mod = p.1 ∧ d.mod.sdkAware.isSome := by
  unfold memberDepsRecordings at hp
  rw [List.mem_filterMap] at hp
  obtain ⟨d, hd, hf⟩ := hp
  cases h : d.mod.sdkAware with
  | none => rw [h] at hf; simp at hf
  | some sa =>
    rw [h] at hf
    simp at hf
    refine ⟨?_, d, hd, ?_, ?_⟩
    · rw [← hf]
    · rw [← hf]
    · rw [h]; rfl

/-- C3 counterexample: a direct dependency reached through the defaults
tag — not bound to any of the four registered member-list properties —
still has the sdk's reference recorded as its containing SDK by pass 2. -/
theorem memberDeps_records_defaults_tagged_dep :
    (⟨"mydefaults", 0, some ⟨"mydefaults", none, []⟩⟩,
     (⟨"mysdk", ""⟩ : SdkRef)) ∈
      memberDepsRecordings ⟨"mysdk", ""⟩
        [⟨DepTag.defaultsDep, ⟨"mydefaults", 0, some ⟨"mydefaults", none, []⟩⟩⟩] ∧
    DepTag.defaultsDep ≠ DepTag.memberList 0 ∧
    DepTag.defaultsDep ≠ DepTag.memberList 1 ∧
    DepTag.defaultsDep ≠ DepTag.memberList 2 ∧
    DepTag.defaultsDep ≠ DepTag.memberList 3 := by decide

/-- C3 (amended): pass 2 records the sdk's reference as the containing
SDK on every direct dependency implementing SdkAware, regardless of the
edge's tag, and on nothing else: every recording pairs a dependency of the
visited list with the sdk's reference. -/
theorem memberDeps_records_all_sdkAware_deps (ref : SdkRef) (deps : List Dep) :
    (∀ d ∈ deps, d.mod.sdkAware.isSome →
      (d.mod, ref) ∈ memberDepsRecordings ref deps) ∧
    (∀ p ∈ memberDepsRecordings ref deps,
      p.2 = ref ∧ ∃ d ∈ deps, d.mod = p.1 ∧ d.mod.sdkAware.isSome) :=
  ⟨fun d hd hsa => mem_memberDepsRecordings ref deps d hd hsa,
   fun p hp => memberDepsRecordings_spec ref deps p hp⟩

/-- Witness for `memberDeps_records_all_sdkAware_deps` at a concrete
dependency list. -/
theorem memberDeps_records_all_sdkAware_deps_witness :
    ((⟨"libfoo", 0, some ⟨"libfoo", none, []⟩⟩ : GraphModule),
     (⟨"mysdk", ""⟩ : SdkRef)) ∈
      memberDepsRecordings ⟨"mysdk", ""⟩
        [⟨DepTag.other 7, ⟨"libfoo", 0, some ⟨"libfoo", none, []⟩⟩⟩] :=
  (memberDeps_records_all_sdkAware_deps ⟨"mysdk", ""⟩
      [⟨DepTag.other 7, ⟨"libfoo", 0, some ⟨"libfoo", none, []⟩⟩⟩]).1
    ⟨DepTag.other 7, ⟨"libfoo", 0, some ⟨"libfoo", none, []⟩⟩⟩
    (by decide) (by decide)

/-- C5 counterexample: a snapshot-flagged sdk named without a version
suffix fails name validation, yet pass 2 still records containment on its
SdkAware direct dependency — the node's further processing is not blocked. -/
theorem memberDeps_error_still_records :
    (memberDepsMutator true "mysnap"
      [⟨DepTag.memberList 0, ⟨"libfoo", 0, some ⟨"libfoo", none, []⟩⟩⟩]).1 ≠ [] ∧
    (memberDepsMutator true "mysnap"
      [⟨DepTag.memberList 0, ⟨"libfoo", 0, some ⟨"libfoo", none, []⟩⟩⟩]).2 =
      [(⟨"libfoo", 0, some ⟨"libfoo", none, []⟩⟩, ⟨"mysnap", ""⟩)] := by decide

/-- C5 (amended): even when name validation reports errors, pass 2 goes
on to record the sdk's parsed reference as the containing SDK of every
SdkAware direct dependency. -/
theorem memberDeps_recording_despite_error (snapshot : Bool)
    (moduleName : String) (deps : List Dep) (d : Dep) (hd : d ∈ deps)
    (hsa : d.mod.sdkAware.isSome)
    (herr : (memberDepsMutator snapshot moduleName deps).1 ≠ []) :
    (d.mod, ParseSdkRef moduleName) ∈
      (memberDepsMutator snapshot moduleName deps).2 :=
  mem_memberDepsRecordings (ParseSdkRef moduleName) deps d hd hsa

/-- Witness for `memberDeps_recording_despite_error` at a concrete input. -/
theorem memberDeps_recording_despite_error_witness :
    ((⟨"libbar", 1, some ⟨"libbar", none, []⟩⟩ : GraphModule),
     ParseSdkRef "mysnap2") ∈
      (memberDepsMutator true "mysnap2"
        [⟨DepTag.memberList 1, ⟨"libbar", 1, some ⟨"libbar", none, []⟩⟩⟩]).2 :=
  memberDeps_recording_despite_error true "mysnap2"
    [⟨DepTag.memberList 1, ⟨"libbar", 1, some ⟨"libbar", none, []⟩⟩⟩]
    ⟨DepTag.memberList 1, ⟨"libbar", 1, some ⟨"libbar", none, []⟩⟩⟩
    (by decide) (by decide) (by decide)

/-- C1: pass-6 soundness.  With an empty required set nothing is reported;
for every non-defaults, SdkAware direct dependency either it is
co-packaged, or its containing SDK is in the required set, or a violation
naming it, its SDK, and the required set is reported; and every reported
violation comes from a non-defaults, SdkAware, non-co-packaged dependency
whose containing SDK is outside the required set. -/
theorem sdkRequirements_validation_sound (req : SdkRefs)
    (inApex : GraphModule → Bool) (deps : List Dep) :
    (req = [] → sdkRequirementsMutator req inApex deps = []) ∧
    (req ≠ [] → ∀ d ∈ deps, d.tag ≠ DepTag.defaultsDep →
      ∀ sa, d.mod.sdkAware = some sa →
      inApex d.mod = true ∨
      SdkRefs.Contains req sa.ContainingSdkRef = true ∨
      (⟨d.mod.name, sa.ContainingSdkRef, req⟩ : ReqViolation) ∈
        sdkRequirementsMutator req inApex deps) ∧
    (∀ v ∈ sdkRequirementsMutator req inApex deps, ∃ d ∈ deps,
      d.tag ≠ DepTag.defaultsDep ∧ ∃ sa, d.mod.sdkAware = some sa ∧
      inApex d.mod = false ∧
      SdkRefs.Contains req sa.ContainingSdkRef = false ∧
      v = ⟨d.mod.name, sa.ContainingSdkRef, req⟩) := by
  refine ⟨?_, ?_, ?_⟩
  · intro h
    simp [sdkRequirementsMutator, h]
  · intro hreq d hd htag sa hsa
    by_cases hapex : inApex d.mod = true
    · exact Or.inl hapex
    · by_cases hcont : SdkRefs.Contains req sa.ContainingSdkRef = true
      · exact Or.inr (Or.inl hcont)
      · refine Or.inr (Or.inr ?_)
        unfold sdkRequirementsMutator
        rw [if_neg (by simpa [List.length_eq_zero] using hreq)]
        rw [List.mem_filterMap]
        refine ⟨d, hd, ?_⟩
        rw [if_neg htag, hsa]
        simp only [Bool.not_eq_true] at hapex hcont
        simp [hapex, hcont]
  · intro v hv
    unfold sdkRequirementsMutator at hv
    by_cases hreq : req.length = 0
    · rw [if_pos hreq] at hv
      simp at hv
    · rw [if_neg hreq] at hv
      rw [List.mem_filterMap] at hv
      obtain ⟨d, hd, hf⟩ := hv
      by_cases htag : d.tag = DepTag.defaultsDep
      · rw [if_pos htag] at hf
        simp at hf
      · rw [if_neg htag] at hf
        cases hsa : d.mod.sdkAware with
        | none => rw [hsa] at hf; simp at hf
        | some sa =>
          rw [hsa] at hf
          by_cases hcond : (!inApex d.mod &&
              !SdkRefs.Contains req sa.ContainingSdkRef) = true
          · simp only [hcond, if_pos] at hf
            simp only [Bool.and_eq_true, Bool.not_eq_true'] at hcond
            exact ⟨d, hd, htag, sa, hsa, hcond.1, hcond.2,
              (Option.some_inj.mp hf).symm⟩
          · dsimp only at hf
            rw [if_neg hcond] at hf
            simp at hf

/-- Witness for `sdkRequirements_validation_sound` at a concrete input:
a dependency in SDK mysdk@12 against a required set of mysdk@11 yields
the expected violation. -/
theorem sdkRequirements_validation_sound_witness :
    (fun _ => false) (⟨"libfoo", 0,
        some ⟨"libfoo", some ⟨"mysdk", "12"⟩, []⟩⟩ : GraphModule) = true ∨
    SdkRefs.Contains [⟨"mysdk", "11"⟩]
      (SdkAwareData.ContainingSdkRef ⟨"libfoo", some ⟨"mysdk", "12"⟩, []⟩) = true ∨
    (⟨"libfoo", SdkAwareData.ContainingSdkRef ⟨"libfoo", some ⟨"mysdk", "12"⟩, []⟩,
      [⟨"mysdk", "11"⟩]⟩ : ReqViolation) ∈
      sdkRequirementsMutator [⟨"mysdk", "11"⟩] (fun _ => false)
        [⟨DepTag.other 0, ⟨"libfoo", 0, some ⟨"libfoo", some ⟨"mysdk", "12"⟩, []⟩⟩⟩] :=
  (sdkRequirements_validation_sound [⟨"mysdk", "11"⟩] (fun _ => false)
      [⟨DepTag.other 0, ⟨"libfoo", 0,
        some ⟨"libfoo", some ⟨"mysdk", "12"⟩, []⟩⟩⟩]).2.1
    (by decide)
    ⟨DepTag.other 0, ⟨"libfoo", 0, some ⟨"libfoo", some ⟨"mysdk", "12"⟩, []⟩⟩⟩
    (by decide) (by decide)
    ⟨"libfoo", some ⟨"mysdk", "12"⟩, []⟩ (by decide)

/-- C7: pass 3 creates exactly one reverse edge — from the node named by
the member name, tagged with the versioned-member tag carrying that member
name and the containing SDK's version — precisely for SdkAware modules in
a specific-version SDK, and no edge in every other case. -/
theorem memberInterVersion_edge_iff (m : GraphModule) :
    (∀ sa csdk, m.sdkAware = some sa → sa.containingSdk = some csdk →
      csdk.Unversioned = false →
      memberInterVersionMutator m =
        some ⟨sa.memberName,
              DepTag.memberVersioned sa.memberName csdk.version, m⟩) ∧
    (m.sdkAware = none → memberInterVersionMutator m = none) ∧
    (∀ sa, m.sdkAware = some sa → sa.containingSdk = none →
      memberInterVersionMutator m = none) ∧
    (∀ sa csdk, m.sdkAware = some sa → sa.containingSdk = some csdk →
      csdk.Unversioned = true → memberInterVersionMutator m = none) := by
  refine ⟨?_, ?_, ?_, ?_⟩
  · intro sa csdk hsa hc hv
    simp [memberInterVersionMutator, hsa, hc, hv]
  · intro h
    simp [memberInterVersionMutator, h]
  · intro sa hsa hc
    simp [memberInterVersionMutator, hsa, hc]
  · intro sa csdk hsa hc hv
    simp [memberInterVersionMutator, hsa, hc, hv]

/-- Witness for `memberInterVersion_edge_iff`: a member of mysdk@11 gets
its versioned reverse edge. -/
theorem memberInterVersion_edge_iff_witness :
    memberInterVersionMutator
      ⟨"libfoo.mysdk.11", 0, some ⟨"libfoo", some ⟨"mysdk", "11"⟩, []⟩⟩ =
      some ⟨"libfoo", DepTag.memberVersioned "libfoo" "11",
            ⟨"libfoo.mysdk.11", 0, some ⟨"libfoo", some ⟨"mysdk", "11"⟩, []⟩⟩⟩ :=
  (memberInterVersion_edge_iff
      ⟨"libfoo.mysdk.11", 0, some ⟨"libfoo", some ⟨"mysdk", "11"⟩, []⟩⟩).1
    ⟨"libfoo", some ⟨"mysdk", "11"⟩, []⟩ ⟨"mysdk", "11"⟩
    (by decide) (by decide) (by decide)

/-- Helper: pass 5 with a firing guard is `ReplaceDependencies`. -/
theorem sdkDepsReplaceMutator_some (m : GraphModule) (mem : String)
    (hI : sdkDepsReplaceInvokes m = some mem) (g : Graph) :
    sdkDepsReplaceMutator m g = ReplaceDependencies m.name m.variant mem g := by
  unfold sdkDepsReplaceMutator
  rw [hI]

/-- Helper: pass 5 with a silent guard leaves the graph unchanged. -/
theorem sdkDepsReplaceMutator_none (m : GraphModule)
    (hI : sdkDepsReplaceInvokes m = none) (g : Graph) :
    sdkDepsReplaceMutator m g = g := by
  unfold sdkDepsReplaceMutator
  rw [hI]

/-- Helper: `ReplaceDependencies` preserves length. -/
theorem ReplaceDependencies_length (c : String) (v : Nat) (mem : String)
    (g : Graph) : (ReplaceDependencies c v mem g).length = g.length := by
  unfold ReplaceDependencies
  rw [List.length_map]

/-- Helper: the element-wise effect of `ReplaceDependencies`. -/
theorem ReplaceDependencies_get (c : String) (v : Nat) (mem : String)
    (g : Graph) (i : Nat) (h : i < g.length)
    (h2 : i < (ReplaceDependencies c v mem g).length) :
    (ReplaceDependencies c v mem g).get ⟨i, h2⟩ =
      (if (g.get ⟨i, h⟩).variant = v then
        ⟨(g.get ⟨i, h⟩).name, (g.get ⟨i, h⟩).variant,
         (g.get ⟨i, h⟩).depTargets.map (fun t => if t = mem then c else t)⟩
       else g.get ⟨i, h⟩) := by
  simp only [ReplaceDependencies, List.get_eq_getElem, List.getElem_map]

/-- C2: the pass-5 guard fires — and replacement by the module's member
name is performed — iff the module's containing SDK is a specific version
and its own required-SDK set contains it; and the replacement rewires only
dependents sharing the module's build variant, leaving every dependent of
another variant untouched, while same-variant dependents have exactly
their edges targeting the member name redirected to the module. -/
theorem sdkDepsReplace_guard_and_scope (m : GraphModule) (sa : SdkAwareData)
    (csdk : SdkRef) (hm : m.sdkAware = some sa)
    (hc : sa.containingSdk = some csdk) :
    ((sdkDepsReplaceInvokes m).isSome = true ↔
      (csdk.Unversioned = false ∧
       SdkRefs.Contains sa.requiredSdks csdk = true)) ∧
    (sdkDepsReplaceInvokes m = none ∨
     sdkDepsReplaceInvokes m = some sa.memberName) ∧
    (∀ g : Graph, (sdkDepsReplaceMutator m g).length = g.length ∧
      ∀ i (h : i < g.length) (h2 : i < (sdkDepsReplaceMutator m g).length),
        ((g.get ⟨i, h⟩).variant ≠ m.variant →
          (sdkDepsReplaceMutator m g).get ⟨i, h2⟩ = g.get ⟨i, h⟩) ∧
        (∀ member, sdkDepsReplaceInvokes m = some member →
          (g.get ⟨i, h⟩).variant = m.variant →
          ((sdkDepsReplaceMutator m g).get ⟨i, h2⟩).depTargets =
            (g.get ⟨i, h⟩).depTargets.map
              (fun t => if t = member then m.name else t))) := by
  have hInv : sdkDepsReplaceInvokes m =
      (if (!csdk.Unversioned && SdkRefs.Contains sa.requiredSdks csdk) = true
       then some sa.memberName else none) := by
    unfold sdkDepsReplaceInvokes
    rw [hm]
    dsimp only
    rw [hc]
  refine ⟨?_, ?_, ?_⟩
  · rw [hInv]
    by_cases hv : csdk.Unversioned <;>
      by_cases hr : SdkRefs.Contains sa.requiredSdks csdk <;>
      simp [hv, hr]
  · rw [hInv]
    by_cases hv : csdk.Unversioned <;>
      by_cases hr : SdkRefs.Contains sa.requiredSdks csdk <;>
      simp [hv, hr]
  · intro g
    cases hI : sdkDepsReplaceInvokes m with
    | none =>
      rw [sdkDepsReplaceMutator_none m hI]
      refine ⟨rfl, ?_⟩
      intro i h h2
      refine ⟨fun _ => rfl, ?_⟩
      intro member hmem
      simp at hmem
    | some mem =>
      rw [sdkDepsReplaceMutator_some m mem hI]
      refine ⟨ReplaceDependencies_length m.name m.variant mem g, ?_⟩
      intro i h h2
      constructor
      · intro hvar
        rw [ReplaceDependencies_get m.name m.variant mem g i h h2]
        rw [if_neg hvar]
      · intro member hmem hvar
        rw [Option.some_inj] at hmem
        subst hmem
        rw [ReplaceDependencies_get m.name m.variant mem g i h h2]
        rw [if_pos hvar]

/-- Witness for `sdkDepsReplace_guard_and_scope`: libfoo.mysdk.11 in
mysdk@11 with that SDK required. -/
theorem sdkDepsReplace_guard_and_scope_witness :
    ((sdkDepsReplaceInvokes
        ⟨"libfoo.mysdk.11", 3,
         some ⟨"libfoo", some ⟨"mysdk", "11"⟩, [⟨"mysdk", "11"⟩]⟩⟩).isSome = true ↔
      (SdkRef.Unversioned ⟨"mysdk", "11"⟩ = false ∧
       SdkRefs.Contains [(⟨"mysdk", "11"⟩ : SdkRef)] ⟨"mysdk", "11"⟩ = true)) ∧
    (sdkDepsReplaceInvokes
        ⟨"libfoo.mysdk.11", 3,
         some ⟨"libfoo", some ⟨"mysdk", "11"⟩, [⟨"mysdk", "11"⟩]⟩⟩ = none ∨
     sdkDepsReplaceInvokes
        ⟨"libfoo.mysdk.11", 3,
         some ⟨"libfoo", some ⟨"mysdk", "11"⟩, [⟨"mysdk", "11"⟩]⟩⟩ =
       some "libfoo") ∧
    (∀ g : Graph,
      (sdkDepsReplaceMutator
          ⟨"libfoo.mysdk.11", 3,
           some ⟨"libfoo", some ⟨"mysdk", "11"⟩, [⟨"mysdk", "11"⟩]⟩⟩ g).length =
        g.length ∧
      ∀ i (h : i < g.length)
        (h2 : i < (sdkDepsReplaceMutator
          ⟨"libfoo.mysdk.11", 3,
           some ⟨"libfoo", some ⟨"mysdk", "11"⟩, [⟨"mysdk", "11"⟩]⟩⟩ g).length),
        ((g.get ⟨i, h⟩).variant ≠
            (⟨"libfoo.mysdk.11", 3,
              some ⟨"libfoo", some ⟨"mysdk", "11"⟩,
                [⟨"mysdk", "11"⟩]⟩⟩ : GraphModule).variant →
          (sdkDepsReplaceMutator
            ⟨"libfoo.mysdk.11", 3,
             some ⟨"libfoo", some ⟨"mysdk", "11"⟩, [⟨"mysdk", "11"⟩]⟩⟩ g).get
              ⟨i, h2⟩ = g.get ⟨i, h⟩) ∧
        (∀ member,
          sdkDepsReplaceInvokes
            ⟨"libfoo.mysdk.11", 3,
             some ⟨"libfoo", some ⟨"mysdk", "11"⟩, [⟨"mysdk", "11"⟩]⟩⟩ =
            some member →
          (g.get ⟨i, h⟩).variant =
            (⟨"libfoo.mysdk.11", 3,
              some ⟨"libfoo", some ⟨"mysdk", "11"⟩,
                [⟨"mysdk", "11"⟩]⟩⟩ : GraphModule).variant →
          ((sdkDepsReplaceMutator
              ⟨"libfoo.mysdk.11", 3,
               some ⟨"libfoo", some ⟨"mysdk", "11"⟩, [⟨"mysdk", "11"⟩]⟩⟩ g).get
              ⟨i, h2⟩).depTargets =
            (g.get ⟨i, h⟩).depTargets.map
              (fun t => if t = member then
                (⟨"libfoo.mysdk.11", 3,
                  some ⟨"libfoo", some ⟨"mysdk", "11"⟩,
                    [⟨"mysdk", "11"⟩]⟩⟩ : GraphModule).name
                else t))) :=
  sdkDepsReplace_guard_and_scope
    ⟨"libfoo.mysdk.11", 3,
     some ⟨"libfoo", some ⟨"mysdk", "11"⟩, [⟨"mysdk", "11"⟩]⟩⟩
    ⟨"libfoo", some ⟨"mysdk", "11"⟩, [⟨"mysdk", "11"⟩]⟩
    ⟨"mysdk", "11"⟩ (by decide) (by decide)

/-- Helper: retargeting a target name twice equals retargeting it once. -/
theorem retarget_idem (c mem t : String) :
    (if (if t = mem then c else t) = mem then c
     else (if t = mem then c else t)) = (if t = mem then c else t) := by
  by_cases ht : t = mem <;> by_cases hcm : c = mem <;> simp [ht, hcm]

/-- Helper: `ReplaceDependencies` is idempotent. -/
theorem ReplaceDependencies_idem (c : String) (v : Nat) (mem : String)
    (g : Graph) :
    ReplaceDependencies c v mem (ReplaceDependencies c v mem g) =
      ReplaceDependencies c v mem g := by
  unfold ReplaceDependencies
  rw [List.map_map]
  apply List.map_congr_left
  intro dep _
  dsimp only [Function.comp_apply]
  by_cases hv : dep.variant = v
  · rw [if_pos hv]
    dsimp only
    rw [List.map_map]
    have : ∀ t ∈ dep.depTargets,
        ((fun t => if t = mem then c else t) ∘ fun t => if t = mem then c else t) t =
          (fun t => if t = mem then c else t) t := by
      intro t _
      dsimp only [Function.comp_apply]
      exact retarget_idem c mem t
    rw [List.map_congr_left this]
    rw [if_pos hv]
  · rw [if_neg hv]
    rw [if_neg hv]

/-- C8: with the module's containment, required-SDK set, and variant held
fixed, running the pass-5 edge replacement twice yields the same graph as
running it once — the replacement is a fixed point. -/
theorem sdkDepsReplace_idempotent (m : GraphModule) (g : Graph) :
    sdkDepsReplaceMutator m (sdkDepsReplaceMutator m g) =
      sdkDepsReplaceMutator m g := by
  cases hI : sdkDepsReplaceInvokes m with
  | none => rw [sdkDepsReplaceMutator_none m hI, sdkDepsReplaceMutator_none m hI]
  | some mem =>
    rw [sdkDepsReplaceMutator_some m mem hI, sdkDepsReplaceMutator_some m mem hI]
    exact ReplaceDependencies_idem m.name m.variant mem g

/-- Helper: `BuildWithSdks` only grows the required-SDK set. -/
theorem BuildWithSdks_superset (sa : SdkAwareData) (sdks : SdkRefs) :
    (∀ r ∈ sa.requiredSdks, r ∈ (BuildWithSdks sa sdks).requiredSdks) ∧
    (∀ r ∈ sdks, r ∈ (BuildWithSdks sa sdks).requiredSdks) := by
  constructor
  · intro r hr
    unfold BuildWithSdks
    dsimp only
    exact List.mem_append_left _ hr
  · intro r hr
    unfold BuildWithSdks
    dsimp only
    by_cases hmem : r ∈ sa.requiredSdks
    · exact List.mem_append_left _ hmem
    · refine List.mem_append_right _ ?_
      rw [List.mem_filter]
      refine ⟨hr, ?_⟩
      simp [hmem]

/-- Helper: the per-dependency step of pass 4 never loses a requirement
and, on SdkAware dependencies, adds every pushed requirement. -/
theorem sdkDepsStep_superset (req : SdkRefs) (d : GraphModule) :
    (∀ r ∈ d.requiredOf, r ∈ (sdkDepsStep req d).requiredOf) ∧
    (d.sdkAware.isSome = true →
      ∀ r ∈ req, r ∈ (sdkDepsStep req d).requiredOf) := by
  cases hd : d.sdkAware with
  | none =>
    refine ⟨?_, ?_⟩
    · intro r hr
      unfold sdkDepsStep
      rw [hd]
      exact hr
    · intro hisSome
      simp at hisSome
  | some dsa =>
    have hstep : sdkDepsStep req d =
        ⟨d.name, d.variant, some (BuildWithSdks dsa req)⟩ := by
      unfold sdkDepsStep
      rw [hd]
    have hreqOld : d.requiredOf = dsa.requiredSdks := by
      unfold GraphModule.requiredOf
      rw [hd]
    have hreqNew : (sdkDepsStep req d).requiredOf =
        (BuildWithSdks dsa req).requiredSdks := by
      rw [hstep]
      unfold GraphModule.requiredOf
      rfl
    refine ⟨?_, ?_⟩
    · intro r hr
      rw [hreqOld] at hr
      rw [hreqNew]
      exact (BuildWithSdks_superset dsa req).1 r hr
    · intro _ r hr
      rw [hreqNew]
      exact (BuildWithSdks_superset dsa req).2 r hr

/-- C6: pass 4 preserves the length of the dependency list; every
dependency's required-SDK set after the pass is a superset of its set
before the pass; and when the module is SdkAware with a non-empty
required set, every SdkAware dependency's set afterwards also contains
every element of the module's set. -/
theorem sdkDeps_propagation_monotone (m : GraphModule)
    (deps : List GraphModule) :
    (sdkDepsMutator m deps).length = deps.length ∧
    ∀ (i : Nat) (dOld dNew : GraphModule), deps[i]? = some dOld →
      (sdkDepsMutator m deps)[i]? = some dNew →
      (∀ r ∈ dOld.requiredOf, r ∈ dNew.requiredOf) ∧
      (∀ sa, m.sdkAware = some sa → sa.requiredSdks ≠ [] →
        dOld.sdkAware.isSome = true →
        ∀ r ∈ sa.requiredSdks, r ∈ dNew.requiredOf) := by
  cases hm : m.sdkAware with
  | none =>
    have hmut : sdkDepsMutator m deps = deps := by
      unfold sdkDepsMutator
      rw [hm]
    rw [hmut]
    refine ⟨rfl, ?_⟩
    intro i dOld dNew hOld hNew
    rw [hOld, Option.some_inj] at hNew
    subst hNew
    refine ⟨fun r hr => hr, ?_⟩
    intro sa hsa
    simp at hsa
  | some msa =>
    by_cases hne : msa.requiredSdks.length > 0
    · have hmut : sdkDepsMutator m deps =
          deps.map (sdkDepsStep msa.requiredSdks) := by
        unfold sdkDepsMutator
        rw [hm]
        dsimp only
        rw [if_pos hne]
      rw [hmut]
      refine ⟨List.length_map _ _, ?_⟩
      intro i dOld dNew hOld hNew
      rw [List.getElem?_map, hOld, Option.map_some'] at hNew
      rw [Option.some_inj] at hNew
      subst hNew
      refine ⟨(sdkDepsStep_superset msa.requiredSdks dOld).1, ?_⟩
      intro sa hsa hne2 hisSome
      rw [Option.some_inj] at hsa
      subst hsa
      exact (sdkDepsStep_superset msa.requiredSdks dOld).2 hisSome
    · have hmut : sdkDepsMutator m deps = deps := by
        unfold sdkDepsMutator
        rw [hm]
        dsimp only
        rw [if_neg hne]
      rw [hmut]
      refine ⟨rfl, ?_⟩
      intro i dOld dNew hOld hNew
      rw [hOld, Option.some_inj] at hNew
      subst hNew
      refine ⟨fun r hr => hr, ?_⟩
      intro sa hsa hne2
      rw [Option.some_inj] at hsa
      subst hsa
      exact absurd (List.length_eq_zero.mp (Nat.eq_zero_of_not_pos hne))
        hne2

/-- Witness for `sdkDeps_propagation_monotone`: an APEX-like parent
requiring mysdk@11 pushes that requirement into its SdkAware dependency. -/
theorem sdkDeps_propagation_monotone_witness :
    (∀ r ∈ (⟨"libfoo", 0, some ⟨"libfoo", none, [⟨"other", ""⟩]⟩⟩ :
        GraphModule).requiredOf,
      r ∈ (sdkDepsStep [⟨"mysdk", "11"⟩]
        ⟨"libfoo", 0, some ⟨"libfoo", none, [⟨"other", ""⟩]⟩⟩).requiredOf) ∧
    (∀ sa, (⟨"myapex", 0, some ⟨"myapex", none, [⟨"mysdk", "11"⟩]⟩⟩ :
        GraphModule).sdkAware = some sa →
      sa.requiredSdks ≠ [] →
      (⟨"libfoo", 0, some ⟨"libfoo", none, [⟨"other", ""⟩]⟩⟩ :
        GraphModule).sdkAware.isSome = true →
      ∀ r ∈ sa.requiredSdks,
        r ∈ (sdkDepsStep [⟨"mysdk", "11"⟩]
          ⟨"libfoo", 0, some ⟨"libfoo", none, [⟨"other", ""⟩]⟩⟩).requiredOf) :=
  (sdkDeps_propagation_monotone
      ⟨"myapex", 0, some ⟨"myapex", none, [⟨"mysdk", "11"⟩]⟩⟩
      [⟨"libfoo", 0, some ⟨"libfoo", none, [⟨"other", ""⟩]⟩⟩]).2
    0 ⟨"libfoo", 0, some ⟨"libfoo", none, [⟨"other", ""⟩]⟩⟩
    (sdkDepsStep [⟨"mysdk", "11"⟩]
      ⟨"libfoo", 0, some ⟨"libfoo", none, [⟨"other", ""⟩]⟩⟩)
    (by decide) (by decide)

/-- C9: a build-file sdk module (ModuleFactory, snapshot flag false —
the flag is absent from the settable property surface) generates a valid
snapshot artifact path and Android.mk entries exposing that file with a
phony rule named after the module; an sdk_snapshot module (snapshot flag
set at construction) generates no artifact and yields empty entries. -/
theorem snapshot_output_behavior (moduleName : String) (bp : SdkBpInput) :
    (SnapshotModuleFactory moduleName bp).properties.Snapshot = true ∧
    (GenerateAndroidBuildActions
      (SnapshotModuleFactory moduleName bp)).snapshotFile = none ∧
    AndroidMkEntriesOf
      (GenerateAndroidBuildActions (SnapshotModuleFactory moduleName bp)) =
      emptyAndroidMkEntries ∧
    (ModuleFactory moduleName bp).properties.Snapshot = false ∧
    (GenerateAndroidBuildActions (ModuleFactory moduleName bp)).snapshotFile =
      some (buildSnapshot (ModuleFactory moduleName bp)) ∧
    AndroidMkEntriesOf
      (GenerateAndroidBuildActions (ModuleFactory moduleName bp)) =
      ⟨"FAKE", some (buildSnapshot (ModuleFactory moduleName bp)),
       some (buildSnapshot (ModuleFactory moduleName bp)),
       "$(BUILD_PHONY_PACKAGE)",
       [".PHONY: " ++ moduleName,
        moduleName ++ ": " ++ buildSnapshot (ModuleFactory moduleName bp)]⟩ := by
  refine ⟨rfl, rfl, rfl, rfl, rfl, rfl⟩

/-- Helper: the length of the populated registry suffix. -/
theorem populateDependencyTagsFrom_length (i : Nat)
    (l : List SdkMemberListProperty) :
    (populateDependencyTagsFrom i l).length = l.length := by
  induction l generalizing i with
  | nil => rfl
  | cons p rest ih =>
    unfold populateDependencyTagsFrom
    dsimp only [List.length_cons]
    rw [ih]

/-- Helper: each entry of the populated registry suffix carries the tag
of its absolute index. -/
theorem populateDependencyTagsFrom_get (i : Nat)
    (l : List SdkMemberListProperty) (j : Nat)
    (h : j < (populateDependencyTagsFrom i l).length) :
    ((populateDependencyTagsFrom i l).get ⟨j, h⟩).dependencyTag =
      some (i + j) := by
  induction l generalizing i j with
  | nil => simp [populateDependencyTagsFrom] at h
  | cons p rest ih =>
    cases j with
    | zero => rfl
    | succ j2 =>
      have h2 : j2 < (populateDependencyTagsFrom (i + 1) rest).length := by
        rw [populateDependencyTagsFrom_length]
        have h3 := h
        rw [populateDependencyTagsFrom_length, List.length_cons] at h3
        omega
      have : ((populateDependencyTagsFrom i (p :: rest)).get
          ⟨j2 + 1, h⟩) =
          ((populateDependencyTagsFrom (i + 1) rest).get ⟨j2, h2⟩) := rfl
      rw [this, ih (i + 1) j2 h2]
      congr 1
      omega

/-- C10: after package init, every registry entry's dependency tag is
bound and points back to that same entry (its registry index), the four
tags are pairwise distinct, and every membership edge created by pass 1
carries the tag of the registry entry whose member list the edge's target
name came from. -/
theorem registry_tag_roundtrip :
    (∀ i (h : i < sdkMemberListProperties.length),
      (sdkMemberListProperties.get ⟨i, h⟩).dependencyTag = some i) ∧
    (∀ i j (hi : i < sdkMemberListProperties.length)
      (hj : j < sdkMemberListProperties.length), i ≠ j →
      (sdkMemberListProperties.get ⟨i, hi⟩).dependencyTag ≠
        (sdkMemberListProperties.get ⟨j, hj⟩).dependencyTag) ∧
    (∀ props e, e ∈ memberMutatorEdges props →
      ∃ i, ∃ h : i < sdkMemberListProperties.length,
        e.1 = some i ∧
        e.2 ∈ (sdkMemberListProperties.get ⟨i, h⟩).getter props) := by
  have hidx : ∀ i (h : i < sdkMemberListProperties.length),
      (sdkMemberListProperties.get ⟨i, h⟩).dependencyTag = some i := by
    intro i h
    have := populateDependencyTagsFrom_get 0 sdkMemberListPropertiesDecl i h
    rw [Nat.zero_add] at this
    exact this
  refine ⟨hidx, ?_, ?_⟩
  · intro i j hi hj hne
    rw [hidx i hi, hidx j hj]
    simp [hne]
  · intro props e he
    unfold memberMutatorEdges at he
    rw [List.mem_flatten] at he
    obtain ⟨l, hl, hel⟩ := he
    rw [List.mem_map] at hl
    obtain ⟨p, hp, hlp⟩ := hl
    rw [List.mem_iff_get] at hp
    obtain ⟨⟨i, hi⟩, hpi⟩ := hp
    subst hlp
    rw [List.mem_map] at hel
    obtain ⟨n, hn, hen⟩ := hel
    refine ⟨i, hi, ?_, ?_⟩
    · rw [← hen]
      dsimp only
      rw [← hpi, hidx i hi]
    · rw [← hen]
      dsimp only
      rw [← hpi] at hn
      exact hn

/-- Witness for `registry_tag_roundtrip`: the first registry entry
(native_shared_libs) points back to index 0, and an edge created for a
native library carries that tag. -/
theorem registry_tag_roundtrip_witness :
    (sdkMemberListProperties.get
      ⟨0, by norm_num [sdkMemberListProperties, sdkMemberListPropertiesDecl,
        populateDependencyTagsFrom]⟩).dependencyTag = some 0 :=
  registry_tag_roundtrip.1 0
    (by norm_num [sdkMemberListProperties, sdkMemberListPropertiesDecl,
      populateDependencyTagsFrom])
